import Mathlib

/-!
Verification of the SIP↔messenger media bridge (`sip-tg-bridge`).

This file shallowly embeds the audio-path components that the checked
claims speak about:

* `pcm.PCMPlayoutBuffer` and its `ReadIntoAdjust` / `DropFrames`
  operations (src/bridge/pcm/playout_buffer.go);
* the drift-control tick of `MediaBridge.writeTG`
  (src/bridge/media_bridge.go);
* the DTX silence filler (src/bridge/pipeline/silence_filler.go);
* the monotonic capture-timestamp policy of
  `TgEndpoint.SendPCMFrame10ms`;
* the construction checks of `NewSipEndpoint`
  (src/bridge/endpoints/sip_endpoint.go).

Machine integers are embedded as `Nat`/`Int` with explicit wrapping
(`Int.emod` for two's-complement reduction) where the Go code relies on
fixed-width arithmetic.  Go's `/` and `%` on signed integers truncate
toward zero, so they are rendered as `Int.tdiv`/`Int.emod`-based helpers
rather than Lean's flooring `/`.
-/

set_option maxHeartbeats 1000000
set_option maxRecDepth 100000

namespace pcm

/-- The int16 value whose two's-complement bit pattern is `x mod 2^16`.
Models Go's wrapping `int16` arithmetic / conversions. -/
def wrap16 (x : Int) : Int :=
  let u := x.emod 65536
  if u < 32768 then u else u - 65536

/-- The uint16 bit pattern of an int16 value (`uint16(v)` in Go). -/
def u16ofS (v : Int) : Nat :=
  (v.emod 65536).toNat

/-- Bitwise XOR of two int16 values, as an int16 (`a ^ b` in Go). -/
def s16xor (a b : Int) : Int :=
  wrap16 (Nat.xor (u16ofS a) (u16ofS b) : Nat)

/-- Embeds the `readS16` closure of `ReadIntoAdjust`:
`int16(uint16(p[off]) | uint16(p[off+1])<<8)`.  The buffer is a list of
bytes; `% 256` makes the embedding total on arbitrary `Nat` entries (it
is the identity on genuine bytes).  Out-of-range reads default to 0;
every call site keeps `off+1` in range. -/
def readS16 (p : List Nat) (off : Nat) : Int :=
  wrap16 ((p.getD off 0 % 256 + (p.getD (off + 1) 0 % 256) * 256 : Nat) : Int)

/-- Embeds the `abs16` closure: `if v < 0 { return int32(-v) }`.
The negation `-v` is int16 negation, so it wraps at `-32768`. -/
def abs16 (v : Int) : Int :=
  if v < 0 then wrap16 (-v) else v

/-- Score of one cut candidate: the body of the search loop of
`findBestCut` (energy + discontinuity + zero-crossing bonus).
`bb - a` and `c - bb` are int16 subtractions, hence the `wrap16`. -/
def cutScore (p : List Nat) (off : Int) : Int :=
  let a := readS16 p (off - 2).toNat
  let bb := readS16 p off.toNat
  let c := readS16 p (off + 2).toNat
  let e := abs16 bb + abs16 a + abs16 c
  let d := abs16 (wrap16 (bb - a)) + abs16 (wrap16 (c - bb))
  let z : Int := if s16xor a bb < 0 ∨ s16xor bb c < 0 then -2000 else 0
  e + d + z

/-- Embeds the `findBestCut` closure of `ReadIntoAdjust`: clamp and
sample-align the window, then scan `minOff, minOff+2, …, maxOff`
keeping the first strictly best score (initial best = `minOff`,
initial score = `1<<31 - 1`). -/
def findBestCut (p : List Nat) (minOff0 maxOff0 : Int) : Int :=
  let minOff1 := if minOff0 < 2 then 2 else minOff0
  let maxOff1 := if maxOff0 > (p.length : Int) - 4 then (p.length : Int) - 4 else maxOff0
  let minOff := minOff1.tdiv 2 * 2
  let maxOff := maxOff1.tdiv 2 * 2
  if maxOff < minOff then ((p.length : Int)).tdiv 2 * 2
  else
    let cands := (List.range ((maxOff - minOff).toNat / 2 + 1)).map fun (i : Nat) => minOff + 2 * (i : Int)
    (cands.foldl
      (fun best off =>
        let score := cutScore p off
        if score < best.2 then (off, score) else best)
      (minOff, (2 ^ 31 - 1 : Int))).1

/-- Shallow embedding of `PCMPlayoutBuffer`
(src/bridge/pcm/playout_buffer.go).  Bytes are naturals below 256; the
mutex is irrelevant in this sequential model. -/
structure PCMPlayoutBuffer where
  frameSize : Nat
  buf : List Nat
deriving Repr, DecidableEq

/-- `NewPCMPlayoutBuffer`: clamps `frameSize` to at least 1 and starts
empty (capacity is not observable). -/
def NewPCMPlayoutBuffer (frameSize : Int) : PCMPlayoutBuffer :=
  if frameSize < 1 then { frameSize := 1, buf := [] }
  else { frameSize := frameSize.toNat, buf := [] }

/-- `LenFrames`: `len(b.buf) / b.frameSize`. -/
def PCMPlayoutBuffer.LenFrames (b : PCMPlayoutBuffer) : Nat :=
  b.buf.length / b.frameSize

/-- `WriteFrame`: append exactly one frame; size mismatches are ignored. -/
def PCMPlayoutBuffer.WriteFrame (b : PCMPlayoutBuffer) (frame : List Nat) : PCMPlayoutBuffer :=
  if frame.length ≠ b.frameSize then b
  else { b with buf := b.buf ++ frame }

/-- `DropFrames`: drop up to `n` oldest frames, returning the new buffer
and how many frames were dropped. -/
def PCMPlayoutBuffer.DropFrames (b : PCMPlayoutBuffer) (n : Int) : PCMPlayoutBuffer × Int :=
  if n ≤ 0 then (b, 0)
  else
    let available : Int := (b.buf.length / b.frameSize : Nat)
    if available ≤ 0 then (b, 0)
    else
      let n1 := if n > available then available else n
      ({ b with buf := b.buf.drop (n1.toNat * b.frameSize) }, n1)

/-- The `case 1` body of the adjust switch in `ReadIntoAdjust`: drop one
sample (2 bytes) near the middle to time-compress slightly.  `inL` has
`frameSize + 2` bytes; the result has `frameSize` bytes. -/
def dropOneSample (frameSize : Nat) (inL : List Nat) : List Nat :=
  let mid : Int := (frameSize : Int).tdiv 2
  let win : Int := 80
  let dropAt0 := findBestCut inL (mid - win) (mid + win)
  -- Ensure dropAt is within the output span.
  let dropAt1 := if dropAt0 < 0 then 0 else dropAt0
  let dropAt := (if dropAt1 > (frameSize : Int) then (frameSize : Int) else dropAt1).toNat
  inL.take dropAt ++ inL.drop (dropAt + 2)

/-- The `case -1` body of the adjust switch in `ReadIntoAdjust`:
duplicate one sample near the middle (inserting the mean of its
neighbours) to time-expand slightly.  `inL` has `frameSize - 2` bytes;
the result has `frameSize` bytes. -/
def dupOneSample (frameSize : Nat) (inL : List Nat) : List Nat :=
  let mid : Int := (frameSize : Int).tdiv 2
  let win : Int := 80
  let dupAt0 := findBestCut inL (mid - win) (mid + win)
  let dupAt1 := dupAt0.tdiv 2 * 2
  let dupAt2 := if dupAt1 < 2 then 2 else dupAt1
  let dupAt := (if dupAt2 > (frameSize : Int) - 2 then (frameSize : Int) - 2 else dupAt2).toNat
  let leftOff := dupAt - 2
  let rightOff := if (dupAt : Int) > (inL.length : Int) - 2
    then ((inL.length : Int) - 2).toNat else dupAt
  let l := readS16 inL leftOff
  let rv := readS16 inL rightOff
  let ins := (l + rv).tdiv 2
  let insU := (ins.emod 65536).toNat
  inL.take dupAt ++ [insU % 256, insU / 256] ++ inL.drop dupAt

/-- Shallow embedding of `PCMPlayoutBuffer.ReadIntoAdjust`.  Returns the
new contents of `dst`, the new buffer, and `ok`.  The Go `copy` calls
always fill their destination spans exactly (the guards make source and
destination spans equal), so they are rendered as list concatenations. -/
def PCMPlayoutBuffer.ReadIntoAdjust (b : PCMPlayoutBuffer) (dst : List Nat)
    (adjustSamples0 : Int) : List Nat × PCMPlayoutBuffer × Bool :=
  if dst.length ≠ b.frameSize then (dst, b, false)
  else
    -- We only support tiny adjustments; anything else is ignored.
    let adjustSamples := if adjustSamples0 > 1 then 1
      else if adjustSamples0 < -1 then -1 else adjustSamples0
    -- PCM16 => 2 bytes/sample. If frameSize isn't even, fall back to exact copy.
    if b.frameSize % 2 ≠ 0 then
      if b.buf.length < b.frameSize then (List.replicate dst.length 0, b, false)
      else (b.buf.take b.frameSize, { b with buf := b.buf.drop b.frameSize }, true)
    else
      let inBytes0 : Int := (b.frameSize : Int) + adjustSamples * 2
      let inBytes := (if inBytes0 < 0 then 0 else inBytes0).toNat
      if b.buf.length < inBytes ∨ inBytes = 0 then (List.replicate dst.length 0, b, false)
      else
        let inL := b.buf.take inBytes
        -- Consume now (we already have a slice view).
        let b1 := { b with buf := b.buf.drop inBytes }
        if adjustSamples = 0 then (inL.take b.frameSize, b1, true)
        else if adjustSamples = 1 then (dropOneSample b.frameSize inL, b1, true)
        else if adjustSamples = -1 then (dupOneSample b.frameSize inL, b1, true)
        else (inL.take b.frameSize, b1, true)

/-- `ReadInto` is `ReadIntoAdjust` with adjust 0. -/
def PCMPlayoutBuffer.ReadInto (b : PCMPlayoutBuffer) (dst : List Nat) :
    List Nat × PCMPlayoutBuffer × Bool :=
  b.ReadIntoAdjust dst 0

end pcm

namespace bridge

/-- Drift-control state of `MediaBridge` as used by the `writeTG`
pacing loop: the SIP→TG playout buffer and the drift accumulator. -/
structure DriftState where
  sipToTGBuffer : pcm.PCMPlayoutBuffer
  driftAcc : Int
deriving Repr, DecidableEq

/-- Result of one `writeTG` tick: the new state, the `adjust` passed to
`ReadIntoAdjust`, the number of frames dropped by the hard cap, and the
`ok` flag of the read. -/
structure TickResult where
  state : DriftState
  adjust : Int
  dropped : Int
  ok : Bool
deriving Repr, DecidableEq

/-- Shallow embedding of one iteration of the `ticker.C` case of
`MediaBridge.writeTG` (src/bridge/media_bridge.go): hard cap, error
accumulation with hysteresis, ±1 apply, and the adjusted read.  The tick
is modelled as atomic (producer writes happen between ticks); logging
and stats are dropped.  `frameBuf` is a frame-sized scratch buffer whose
prior contents the read never depends on. -/
def writeTGTick (driftTarget : Nat) (st : DriftState) : TickResult :=
  let backlog := st.sipToTGBuffer.LenFrames
  -- Emergency hard cap.
  let capped :=
    if backlog > driftTarget + 200 then
      let (buf1, dropped) := st.sipToTGBuffer.DropFrames ((backlog : Int) - driftTarget)
      (buf1, (0 : Int), dropped)
    else (st.sipToTGBuffer, st.driftAcc, (0 : Int))
  let buf1 := capped.1
  let acc1 := capped.2.1
  let dropped := capped.2.2
  let backlog1 := buf1.LenFrames
  -- Accumulate error with hysteresis so we don't flap.
  let errFrames : Int := (backlog1 : Int) - driftTarget
  let acc2 :=
    if errFrames ≥ 2 then acc1 + errFrames.tdiv 2
    else if errFrames ≤ -2 then acc1 + errFrames.tdiv 2
    else acc1
  let applied :=
    if acc2 > 0 then ((1 : Int), acc2 - 1)
    else if acc2 < 0 then ((-1 : Int), acc2 + 1)
    else ((0 : Int), acc2)
  let adjust := applied.1
  let acc3 := applied.2
  let rd := buf1.ReadIntoAdjust (List.replicate buf1.frameSize 0) adjust
  { state := { sipToTGBuffer := rd.2.1, driftAcc := acc3 }
    adjust := adjust
    dropped := dropped
    ok := rd.2.2 }

/-- `n` producer writes of the all-zero frame between ticks
(`PCMPlayoutBuffer.WriteFrame` from the decode chain). -/
def writeFrames (st : DriftState) (n : Nat) : DriftState :=
  let buf := (List.range n).foldl
    (fun b _ => b.WriteFrame (List.replicate b.frameSize 0)) st.sipToTGBuffer
  { st with sipToTGBuffer := buf }

end bridge

namespace pipeline

/-- Shallow embedding of `silenceFiller`
(src/bridge/pipeline/silence_filler.go).  `lastSeq` holds the uint16
value of the last sequence number, `lastTS` the uint32 value of the last
RTP timestamp (the Go code stores them widened in `atomic.Uint64` and
narrows on read).  The sinks are dropped; only the number of silent
frames written matters here. -/
structure silenceFiller where
  maxGapSize : Nat
  samplesPerFrame : Nat
  lastTS : Nat
  lastSeq : Nat
  packets : Nat
deriving Repr, DecidableEq

/-- `newSilenceFiller`: `maxGapSize = 25`,
`samplesPerFrame = clockRate / rtp.DefFramesPerSec` with
`DefFramesPerSec = 50` (media-sdk's 20 ms default frame duration). -/
def newSilenceFiller (clockRate : Nat) : silenceFiller :=
  { maxGapSize := 25
    samplesPerFrame := clockRate / 50
    lastTS := 0
    lastSeq := 0
    packets := 0 }

/-- Embeds `silenceFiller.isSilenceSuppression`.  `seq` is reduced mod
2^16 and `ts` mod 2^32 on entry (they are `uint16`/`uint32` header
fields); the uint16/uint32 subtractions wrap.  `int(tsDiff)` is exact
(a uint32 fits in Go's 64-bit `int`), and `/` truncates, here on a
non-negative dividend. -/
def silenceFiller.isSilenceSuppression (h : silenceFiller) (seq ts : Nat) :
    (Bool × Int) × silenceFiller :=
  let packets := h.packets + 1
  let lastSeq := h.lastSeq
  let lastTS := h.lastTS
  let h1 := { h with packets := packets, lastSeq := seq % 65536, lastTS := ts % 4294967296 }
  if packets = 1 then ((false, 0), h1)
  else
    let expectedSeq := (lastSeq + 1) % 65536
    let expectedTS := (lastTS + h.samplesPerFrame) % 4294967296
    let seqDiff := (seq % 65536 + (65536 - expectedSeq)) % 65536
    let tsDiff := (ts % 4294967296 + (4294967296 - expectedTS)) % 4294967296
    if seqDiff ≠ 0 then ((false, 0), h1)
    else
      let missedFrames : Int := (tsDiff : Int).tdiv (h.samplesPerFrame : Int)
      if missedFrames = 0 then ((false, 0), h1)
      else ((true, missedFrames), h1)

/-- Embeds `silenceFiller.HandleRTP`; returns how many silent PCM frames
`fillWithSilence` wrote to the PCM sink, and the new filler state.
(The pass-through to the encoded sink and the rate-limited log line do
not write silence and are dropped.) -/
def silenceFiller.HandleRTP (h : silenceFiller) (seq ts : Nat) : Nat × silenceFiller :=
  let r := h.isSilenceSuppression seq ts
  let isDTX := r.1.1
  let missing := r.1.2
  let fills :=
    if isDTX = true ∧ missing ≤ (h.maxGapSize : Int) * 100 then
      if missing ≤ (h.maxGapSize : Int) then missing.toNat else 0
    else 0
  (fills, r.2)

/-- Feed a list of `(sequence, timestamp)` packets through the filler,
summing the silent frames written. -/
def silenceFiller.run (h : silenceFiller) : List (Nat × Nat) → Nat × silenceFiller
  | [] => (0, h)
  | p :: rest =>
    let r := h.HandleRTP p.1 p.2
    let rr := silenceFiller.run r.2 rest
    (r.1 + rr.1, rr.2)

/-- A gap-free RTP stream: `n` packets with consecutive sequence numbers
from `seq0` and timestamps advancing by exactly `spf` from `ts0`. -/
def contigStream (spf seq0 ts0 : Nat) : Nat → List (Nat × Nat)
  | 0 => []
  | n + 1 => (seq0, ts0) :: contigStream spf (seq0 + 1) (ts0 + spf) n

end pipeline

namespace endpoints

/-- The timestamp state of `TgEndpoint.SendPCMFrame10ms`
(src/unnamed/part_007): the wall-clock anchor and the last emitted
capture timestamp, in milliseconds (`int64` in Go; values stay far from
2^63, so plain `Int` is faithful). -/
structure MicClock where
  micStartWallMs : Int
  micLastTsMs : Int
deriving Repr, DecidableEq

/-- The `micOnce` initialisation: anchor the wall clock and set
`micLastTsMs = micStartWallMs - step`. -/
def micInit (startWallMs step : Int) : MicClock :=
  { micStartWallMs := startWallMs, micLastTsMs := startWallMs - step }

/-- `step := s.stepMs; if step < 1 { step = 10 }`. -/
def stepOf (stepMs : Int) : Int :=
  if stepMs < 1 then 10 else stepMs

/-- One timestamp emission of `SendPCMFrame10ms`: quantise the monotonic
elapsed time to `step` boundaries, and never go backwards or repeat. -/
def sendTs (c : MicClock) (step elapsedMs : Int) : Int × MicClock :=
  let ts0 := c.micStartWallMs + elapsedMs.tdiv step * step
  let ts := if ts0 ≤ c.micLastTsMs then c.micLastTsMs + step else ts0
  (ts, { c with micLastTsMs := ts })

/-- The sequence of emitted capture timestamps for a call sequence whose
monotonic elapsed milliseconds at call `n` are `e n`. -/
def tsSeq (startWallMs step : Int) (e : Nat → Int) : Nat → Int × MicClock
  | 0 => sendTs (micInit startWallMs step) step (e 0)
  | n + 1 => sendTs (tsSeq startWallMs step e n).2 step (e (n + 1))

/-- diago's `media.Codec` as consumed by `NewSipEndpoint`. -/
structure Codec where
  Name : String
  PayloadType : Nat
  SampleRate : Nat
  NumChannels : Int
deriving Repr, DecidableEq

/-- `strings.ToLower`, embedded at the character-list level (Lean's
`String.toLower` is defined by well-founded recursion over byte
positions and does not reduce definitionally; this map over the
character list computes the same string for the names involved). -/
def lowerStr (s : String) : String :=
  ⟨s.data.map Char.toLower⟩

/-- `strings.TrimSpace`, embedded at the character-list level: drop
whitespace from both ends. -/
def trimStr (s : String) : String :=
  ⟨((s.data.dropWhile Char.isWhitespace).reverse.dropWhile Char.isWhitespace).reverse⟩

/-- `strings.EqualFold`, on the ASCII names involved here. -/
def equalFold (a b : String) : Bool :=
  lowerStr a == lowerStr b

/-- `Codec.SDPName` (src/unnamed/part_001): `"<name>/<rate>[/<channels>]"`. -/
def Codec.SDPName (c : Codec) : String :=
  if c.NumChannels > 0 ∧ c.NumChannels ≠ 1 then
    c.Name ++ "/" ++ toString c.SampleRate ++ "/" ++ toString c.NumChannels
  else
    c.Name ++ "/" ++ toString c.SampleRate

/-- `Codec.IsDTMF` (src/unnamed/part_001), with
`lkdtmf.SDPName = "telephone-event/8000"`. -/
def Codec.IsDTMF (c : Codec) : Bool :=
  equalFold c.SDPName "telephone-event/8000" || equalFold c.SDPName "telephone-event/8000/1"

/-- The skip condition of the selection loop of `CodecAudioFromList`:
`codec.IsDTMF() || strings.EqualFold(codec.Name, "telephone-event")`. -/
def Codec.skippedAsDTMF (c : Codec) : Bool :=
  c.IsDTMF || equalFold c.Name "telephone-event"

/-- `CodecAudioFromList` (src/unnamed/part_001): pick the non-DTMF codec
with the strictly best preference weight, first wins ties.  The weight
function (`CodecPreferenceWeight`, which consults the external media-sdk
registry) is a parameter.  `none` models `(Codec{}, false)`. -/
def CodecAudioFromList (weight : Codec → Int) (codecs : List Codec) : Option Codec :=
  let best := codecs.enum.foldl
    (fun best ic =>
      if ic.2.skippedAsDTMF then best
      else
        let p := weight ic.2
        match best with
        | none => some (ic.1, p)
        | some bp => if p > bp.2 then some (ic.1, p) else best)
    none
  match best with
  | some bp => codecs.get? bp.1
  | none => none

/-- `media.CanonicalSDPName` (src/unnamed/part_001). -/
def CanonicalSDPName (c : Codec) : String :=
  let name := lowerStr (trimStr c.Name)
  if c.SampleRate = 0 then c.SDPName
  else
    let ch := if c.NumChannels ≤ 0 then 1 else c.NumChannels
    if name = "pcmu" then "PCMU/8000"
    else if name = "pcma" then "PCMA/8000"
    else if name = "g722" then "G722/8000"
    else if name = "opus" then "opus/" ++ toString c.SampleRate ++ "/" ++ toString ch
    else if ch ≠ 1 then c.Name ++ "/" ++ toString c.SampleRate ++ "/" ++ toString ch
    else c.Name ++ "/" ++ toString c.SampleRate

/-- What `NewSipEndpoint` needs from a media-sdk registry entry: the
codec info plus whether the entry is an (enabled) `rtp.AudioCodec`. -/
structure LKCodecInfo where
  SampleRate : Nat
  RTPClockRate : Nat
  enabled : Bool
  isAudio : Bool
deriving Repr, DecidableEq

/-- `SIPMediaConfig`; the frame duration is carried in milliseconds. -/
structure SIPMediaConfig where
  JitterMinPackets : Nat
  FrameDurationMs : Int
deriving Repr, DecidableEq

/-- The fields of `SipEndpoint` that construction determines (RTP IO
handles and the codec implementation itself are external handles). -/
structure SipEndpoint where
  LKSDPName : String
  FrameSize : Int
  Codec : Codec
  SampleRate : Nat
  RTPClockRate : Nat
  Channels : Int
  FrameDurMs : Int
  EnableJitter : Bool
deriving Repr, DecidableEq

/-- `maxInt` (src/bridge/endpoints/sip_endpoint.go). -/
def maxInt (a b : Int) : Int :=
  if a > b then a else b

/-- The part of `NewSipEndpoint` (src/bridge/endpoints/sip_endpoint.go)
after `pickAudio` has selected `codec`: the codec-family switch, the
channel-count checks, the media-sdk name mapping and registry lookup,
and the endpoint construction.  The external media-sdk codec registry
(`sdp.CodecByName` + `media.CodecEnabled` + the `AudioCodec` type
assertion) is the parameter `reg`.  `FrameSize`
(`int(float64(info.SampleRate)*frameDur.Seconds()) * maxInt(1, ch) * 2`)
is rendered in exact integer arithmetic, which agrees with the float
computation for all realistic rates and durations. -/
def sipEndpointFromCodec (reg : String → Option LKCodecInfo) (codec : Codec)
    (cfg : SIPMediaConfig) : Except String SipEndpoint :=
    let low := lowerStr codec.Name
    if ¬(low = "opus" ∨ low = "pcmu" ∨ low = "pcma" ∨ low = "g722") then
      .error ("unsupported sip codec " ++ codec.Name)
    else if low = "opus" ∧ ¬(codec.NumChannels = 1 ∨ codec.NumChannels = 2) then
      .error "unsupported sip channel count"
    else if ¬(low = "opus") ∧ codec.NumChannels ≠ 1 then
      .error "unsupported sip channel count"
    else
      let sdpName := CanonicalSDPName codec
      if trimStr sdpName = "" then .error ("cannot map sip codec " ++ codec.Name)
      else
        match reg sdpName with
        | none => .error ("media-sdk codec not available: " ++ sdpName)
        | some info =>
          if ¬(info.isAudio = true) ∨ ¬(info.enabled = true) then
            .error ("media-sdk codec not available: " ++ sdpName)
          else
            let frameDurMs := if cfg.FrameDurationMs ≤ 0 then 20 else cfg.FrameDurationMs
            .ok { LKSDPName := sdpName
                  FrameSize := ((info.SampleRate : Int) * frameDurMs).tdiv 1000 *
                    maxInt 1 codec.NumChannels * 2
                  Codec := codec
                  SampleRate := info.SampleRate
                  RTPClockRate := info.RTPClockRate
                  Channels := maxInt 1 codec.NumChannels
                  FrameDurMs := frameDurMs
                  EnableJitter := cfg.JitterMinPackets > 0 }

/-- Shallow embedding of `NewSipEndpoint`: pick the negotiated audio
codec (`pickAudio`), then validate and construct via
`sipEndpointFromCodec`.  The preference weights used inside
`CodecAudioFromList` are the parameter `weight`; `commons` is
`session.CommonCodecs()` and `sessionCodecs` is `session.Codecs`; the
nil-session guards cannot fire in this value-level model. -/
def NewSipEndpoint (reg : String → Option LKCodecInfo) (weight : Codec → Int)
    (commons sessionCodecs : List Codec) (cfg : SIPMediaConfig) :
    Except String SipEndpoint :=
  let pickAudio : Except String Codec :=
    if commons.length > 0 then
      match CodecAudioFromList weight commons with
      | some c => .ok c
      | none => .error "no audio codec negotiated (common codecs are DTMF-only)"
    else
      match CodecAudioFromList weight sessionCodecs with
      | some c => .ok c
      | none => .error "no audio codec negotiated"
  match pickAudio with
  | .error e => .error e
  | .ok codec => sipEndpointFromCodec reg codec cfg

end endpoints

/-- Adversarial `+1`-adjust input for `frameSize = 166`: three silent
samples, then 81 loud samples (PCM16 LE `0x7FFF`). -/
def cutCexBuf : List Nat := List.replicate 6 0 ++ (List.replicate 81 [255, 127]).flatten

/-! ## Theorems -/

open pcm bridge pipeline endpoints

/-- **C10.** For every `dst` whose length differs from `frameSize`,
`ReadIntoAdjust` returns not-ok immediately: `dst` is returned untouched
(not zero-filled) and the buffer loses no bytes. -/
theorem readIntoAdjust_dst_mismatch (b : pcm.PCMPlayoutBuffer) (dst : List Nat)
    (adjust : Int) (h : dst.length ≠ b.frameSize) :
    b.ReadIntoAdjust dst adjust = (dst, b, false) := by
  simp [pcm.PCMPlayoutBuffer.ReadIntoAdjust, h]

/-- Witness for `readIntoAdjust_dst_mismatch` at `frameSize = 2`,
`dst = [1, 2, 3]`. -/
theorem readIntoAdjust_dst_mismatch_witness :
    pcm.PCMPlayoutBuffer.ReadIntoAdjust ⟨2, [5, 6]⟩ [1, 2, 3] 0 =
      ([1, 2, 3], ⟨2, [5, 6]⟩, false) :=
  readIntoAdjust_dst_mismatch ⟨2, [5, 6]⟩ [1, 2, 3] 0 (by decide)

/-- **C9.** For every odd `frameSize` and every adjust value,
`ReadIntoAdjust` behaves exactly as `adjust = 0`: with a right-sized
`dst` it either zero-fills `dst` and reports not-ok (when the buffer
holds fewer than `frameSize` bytes) or copies exactly the first
`frameSize` bytes of the buffer and drops them from the front — all
accesses confined to the first `frameSize ≤ buf.length` bytes. -/
theorem readIntoAdjust_odd_frameSize (b : pcm.PCMPlayoutBuffer) (dst : List Nat)
    (adjust : Int) (hodd : b.frameSize % 2 = 1) :
    b.ReadIntoAdjust dst adjust = b.ReadIntoAdjust dst 0 ∧
    (dst.length = b.frameSize →
      (b.buf.length < b.frameSize →
        b.ReadIntoAdjust dst adjust = (List.replicate b.frameSize 0, b, false)) ∧
      (b.frameSize ≤ b.buf.length →
        b.ReadIntoAdjust dst adjust =
          (b.buf.take b.frameSize, { b with buf := b.buf.drop b.frameSize }, true))) := by
  have h2 : ¬ b.frameSize % 2 = 0 := by omega
  refine ⟨?_, fun hlen => ⟨fun hlt => ?_, fun hge => ?_⟩⟩
  · by_cases hl : dst.length ≠ b.frameSize
    · simp [pcm.PCMPlayoutBuffer.ReadIntoAdjust, hl]
    · simp [pcm.PCMPlayoutBuffer.ReadIntoAdjust, hl, h2]
  · simp [pcm.PCMPlayoutBuffer.ReadIntoAdjust, hlen, h2, hlt]
  · simp [pcm.PCMPlayoutBuffer.ReadIntoAdjust, hlen, h2, Nat.not_lt.mpr hge]

/-- Witness for `readIntoAdjust_odd_frameSize` at `frameSize = 3` with
four buffered bytes and `adjust = 1`. -/
theorem readIntoAdjust_odd_frameSize_witness :
    pcm.PCMPlayoutBuffer.ReadIntoAdjust ⟨3, [1, 2, 3, 4]⟩ [9, 9, 9] 1 =
      ([1, 2, 3], ⟨3, [4]⟩, true) :=
  ((readIntoAdjust_odd_frameSize ⟨3, [1, 2, 3, 4]⟩ [9, 9, 9] 1 (by decide)).2
    (by decide)).2 (by decide)

/-- **C4.** For every even `frameSize` and `adjust ∈ {-1, 0, +1}`, when
the buffer holds fewer than `frameSize + 2·adjust` bytes,
`ReadIntoAdjust` fills the whole (right-sized) `dst` with zeros and
returns not-ok, leaving the buffer untouched. -/
theorem readIntoAdjust_underflow_zero_fill (b : pcm.PCMPlayoutBuffer) (dst : List Nat)
    (adjust : Int) (heven : b.frameSize % 2 = 0)
    (hadj : adjust = -1 ∨ adjust = 0 ∨ adjust = 1)
    (hlen : dst.length = b.frameSize)
    (hlt : (b.buf.length : Int) < (b.frameSize : Int) + 2 * adjust) :
    b.ReadIntoAdjust dst adjust = (List.replicate b.frameSize 0, b, false) := by
  rcases hadj with rfl | rfl | rfl
  · have hcond : b.buf.length < b.frameSize - 2 ∨ (b.frameSize : Int) + (-1) * 2 ≤ 0 := by
      omega
    rcases hcond with hcond | hcond
    · simp [pcm.PCMPlayoutBuffer.ReadIntoAdjust, hlen, heven]
      omega
    · simp [pcm.PCMPlayoutBuffer.ReadIntoAdjust, hlen, heven]
      omega
  · simp [pcm.PCMPlayoutBuffer.ReadIntoAdjust, hlen, heven]
    omega
  · simp [pcm.PCMPlayoutBuffer.ReadIntoAdjust, hlen, heven]
    omega

/-- **C1 (amended).** On every drift-controller tick the adjust value
passed to the playout-buffer read satisfies `|adjust| ≤ 1`, and the
apply step leaves the accumulator on the same side of zero as the
emitted adjust (exactly zero when `adjust = 0`).  The originally
claimed `±(driftTarget + 200)` bound on the accumulator itself is
refuted by `driftAcc_exceeds_cap_cex`. -/
theorem writeTGTick_adjust_bounded (driftTarget : Nat) (st : bridge.DriftState) :
    (-1 ≤ (bridge.writeTGTick driftTarget st).adjust ∧
      (bridge.writeTGTick driftTarget st).adjust ≤ 1) ∧
    ((bridge.writeTGTick driftTarget st).adjust = 0 →
      (bridge.writeTGTick driftTarget st).state.driftAcc = 0) ∧
    ((bridge.writeTGTick driftTarget st).adjust = 1 →
      0 ≤ (bridge.writeTGTick driftTarget st).state.driftAcc) ∧
    ((bridge.writeTGTick driftTarget st).adjust = -1 →
      (bridge.writeTGTick driftTarget st).state.driftAcc ≤ 0) := by
  simp only [bridge.writeTGTick]
  split_ifs <;> simp_all <;> omega

/-- Witness for `writeTGTick_adjust_bounded` at a concrete state where
the tick emits `adjust = +1`. -/
theorem writeTGTick_adjust_bounded_witness :
    0 ≤ (bridge.writeTGTick 1
        { sipToTGBuffer := ⟨2, List.replicate 402 0⟩, driftAcc := 0 }).state.driftAcc ∧
    (bridge.writeTGTick 1
        { sipToTGBuffer := ⟨2, List.replicate 402 0⟩, driftAcc := 0 }).adjust ≤ 1 := by
  constructor
  · exact (writeTGTick_adjust_bounded 1
      { sipToTGBuffer := ⟨2, List.replicate 402 0⟩, driftAcc := 0 }).2.2.1 (by decide)
  · exact (writeTGTick_adjust_bounded 1
      { sipToTGBuffer := ⟨2, List.replicate 402 0⟩, driftAcc := 0 }).1.2

/-- **C1 counterexample.** The drift accumulator is *not* bounded by
`±(driftTarget + 200)`: with `driftTarget = 1` and `frameSize = 2`,
starting from 201 buffered frames and writing one frame's worth of
bytes per tick (two 2-byte frames), the backlog sits at the cap
(201 = driftTarget + 200, so no hard-cap drop and no reset) while each
tick adds `err/2 = 100` and removes only 1, reaching 297 > 201 after
three ticks. -/
theorem driftAcc_exceeds_cap_cex :
    (bridge.writeTGTick 1 (bridge.writeFrames
      (bridge.writeTGTick 1 (bridge.writeFrames
        (bridge.writeTGTick 1
          { sipToTGBuffer := ⟨2, List.replicate 402 0⟩,
            driftAcc := 0 }).state 2)).state 2)).state.driftAcc = 297 ∧
    ¬ ((297 : Int) ≤ (1 : Int) + 200) := by
  exact ⟨by decide, by decide⟩

/-- `DropFrames` in the regime the hard cap uses it: a positive request
of at most the available frame count drops exactly `n` frames. -/
theorem dropFrames_of_le (b : pcm.PCMPlayoutBuffer) (n : Int) (hn : 0 < n)
    (hav : 0 < b.LenFrames) (hna : n ≤ (b.LenFrames : Int)) :
    b.DropFrames n = ({ b with buf := b.buf.drop (n.toNat * b.frameSize) }, n) := by
  have h1 : ¬ n ≤ 0 := by omega
  have key : (b.buf.length : Int) / (b.frameSize : Int) = (b.LenFrames : Int) := by
    simp [pcm.PCMPlayoutBuffer.LenFrames]
  have h2 : ¬ ((b.LenFrames : Int) ≤ 0) := by omega
  have h3 : ¬ ((b.LenFrames : Int) < n) := by omega
  simp [pcm.PCMPlayoutBuffer.DropFrames, key, h1, h2, h3]

/-- **C2.** On a tick whose measured backlog exceeds
`driftTarget + 200`, the controller drops exactly
`min (backlog − driftTarget) backlog` oldest whole frames and the tick
ends with the drift accumulator reset to 0; on a tick with
`backlog ≤ driftTarget + 200` no wholesale drop occurs. -/
theorem writeTGTick_hard_cap (driftTarget : Nat) (st : bridge.DriftState)
    (htar : 1 ≤ driftTarget) (hfs : 1 ≤ st.sipToTGBuffer.frameSize) :
    (st.sipToTGBuffer.LenFrames > driftTarget + 200 →
      (bridge.writeTGTick driftTarget st).dropped =
        min ((st.sipToTGBuffer.LenFrames : Int) - driftTarget)
          (st.sipToTGBuffer.LenFrames : Int) ∧
      (bridge.writeTGTick driftTarget st).state.driftAcc = 0) ∧
    (st.sipToTGBuffer.LenFrames ≤ driftTarget + 200 →
      (bridge.writeTGTick driftTarget st).dropped = 0) := by
  constructor
  · intro hcap
    set backlog := st.sipToTGBuffer.LenFrames with hb
    have hdrop := dropFrames_of_le st.sipToTGBuffer ((backlog : Int) - driftTarget)
      (by omega) (by omega) (by omega)
    have htn : ((backlog : Int) - driftTarget).toNat = backlog - driftTarget := by omega
    -- length bookkeeping for the post-drop backlog
    have hlen0 : st.sipToTGBuffer.frameSize * backlog + st.sipToTGBuffer.buf.length %
        st.sipToTGBuffer.frameSize = st.sipToTGBuffer.buf.length := by
      simpa [hb, pcm.PCMPlayoutBuffer.LenFrames] using
        Nat.div_add_mod st.sipToTGBuffer.buf.length st.sipToTGBuffer.frameSize
    have hrem : st.sipToTGBuffer.buf.length % st.sipToTGBuffer.frameSize <
        st.sipToTGBuffer.frameSize := Nat.mod_lt _ (by omega)
    have hTB : driftTarget ≤ backlog := by omega
    have hsplit : (backlog - driftTarget) * st.sipToTGBuffer.frameSize +
        st.sipToTGBuffer.frameSize * driftTarget =
        st.sipToTGBuffer.frameSize * backlog := by
      rw [Nat.mul_comm st.sipToTGBuffer.frameSize driftTarget, ← Nat.add_mul,
        Nat.sub_add_cancel hTB, Nat.mul_comm]
    have hlen1 : (st.sipToTGBuffer.buf.drop
        (((backlog : Int) - driftTarget).toNat * st.sipToTGBuffer.frameSize)).length =
        st.sipToTGBuffer.frameSize * driftTarget +
          st.sipToTGBuffer.buf.length % st.sipToTGBuffer.frameSize := by
      rw [List.length_drop, htn]
      generalize hP : (backlog - driftTarget) * st.sipToTGBuffer.frameSize = P at hsplit ⊢
      generalize hQ : st.sipToTGBuffer.frameSize * driftTarget = Q at hsplit ⊢
      generalize hR : st.sipToTGBuffer.frameSize * backlog = R at hsplit hlen0
      generalize hr : st.sipToTGBuffer.buf.length % st.sipToTGBuffer.frameSize = r
        at hlen0 hrem ⊢
      omega
    have hback1 : (st.sipToTGBuffer.frameSize * driftTarget +
        st.sipToTGBuffer.buf.length % st.sipToTGBuffer.frameSize) /
          st.sipToTGBuffer.frameSize = driftTarget := by
      rw [Nat.mul_add_div (by omega)]
      simp [Nat.div_eq_of_lt hrem]
    have hmin : min ((backlog : Int) - driftTarget) (backlog : Int) =
        (backlog : Int) - driftTarget := by omega
    have hD : pcm.PCMPlayoutBuffer.LenFrames
        { frameSize := st.sipToTGBuffer.frameSize,
          buf := st.sipToTGBuffer.buf.drop
            (((backlog : Int) - driftTarget).toNat * st.sipToTGBuffer.frameSize) } =
        driftTarget := by
      show (st.sipToTGBuffer.buf.drop
          (((backlog : Int) - driftTarget).toNat * st.sipToTGBuffer.frameSize)).length /
        st.sipToTGBuffer.frameSize = driftTarget
      rw [hlen1, hback1]
    rw [hmin]
    simp only [bridge.writeTGTick, ← hb, if_pos hcap, hdrop, hD]
    norm_num
  · intro hle
    have : ¬ st.sipToTGBuffer.LenFrames > driftTarget + 200 := by omega
    simp [bridge.writeTGTick, this]

/-- Witness for `writeTGTick_hard_cap`: `driftTarget = 1`,
`frameSize = 2`, 300 buffered frames (> 201): 299 frames are dropped
and the accumulator (started at 55) ends at 0; and a 10-frame backlog
drops nothing. -/
theorem writeTGTick_hard_cap_witness :
    (bridge.writeTGTick 1
        { sipToTGBuffer := ⟨2, List.replicate 600 0⟩, driftAcc := 55 }).dropped =
      min ((300 : Int) - 1) 300 ∧
    (bridge.writeTGTick 1
        { sipToTGBuffer := ⟨2, List.replicate 600 0⟩, driftAcc := 55 }).state.driftAcc = 0 ∧
    (bridge.writeTGTick 1
        { sipToTGBuffer := ⟨2, List.replicate 20 0⟩, driftAcc := 0 }).dropped = 0 := by
  refine ⟨?_, ?_, ?_⟩
  · exact ((writeTGTick_hard_cap 1 _ (by decide) (by decide)).1 (by decide)).1
  · exact ((writeTGTick_hard_cap 1 _ (by decide) (by decide)).1 (by decide)).2
  · exact (writeTGTick_hard_cap 1
      { sipToTGBuffer := ⟨2, List.replicate 20 0⟩, driftAcc := 0 } (by decide)
      (by decide)).2 (by decide)

/-- `ReadIntoAdjust` never reads the prior contents of a right-sized
`dst`: the result is the same for any two right-sized destinations. -/
theorem readIntoAdjust_dst_irrel (b : pcm.PCMPlayoutBuffer) (dst dst2 : List Nat)
    (a : Int) (h1 : dst.length = b.frameSize) (h2 : dst2.length = b.frameSize) :
    b.ReadIntoAdjust dst a = b.ReadIntoAdjust dst2 a := by
  simp [pcm.PCMPlayoutBuffer.ReadIntoAdjust, h1, h2]

/-- The time-compressed frame always has exactly `frameSize` bytes. -/
theorem dropOneSample_length (fs : Nat) (inL : List Nat) (h : inL.length = fs + 2) :
    (pcm.dropOneSample fs inL).length = fs := by
  simp only [pcm.dropOneSample]
  generalize pcm.findBestCut inL ((fs : Int).tdiv 2 - 80) ((fs : Int).tdiv 2 + 80) = F
  split_ifs <;>
    simp only [List.length_append, List.length_take, List.length_drop, h] <;> omega

/-- The time-expanded frame always has exactly `frameSize` bytes. -/
theorem dupOneSample_length (fs : Nat) (inL : List Nat) (hfs : 4 ≤ fs)
    (h : inL.length = fs - 2) :
    (pcm.dupOneSample fs inL).length = fs := by
  simp only [pcm.dupOneSample]
  generalize pcm.findBestCut inL ((fs : Int).tdiv 2 - 80) ((fs : Int).tdiv 2 + 80) = F
  generalize F.tdiv 2 * 2 = G
  split_ifs <;>
    simp only [List.length_append, List.length_take, List.length_drop,
      List.length_cons, List.length_nil, h] <;> omega

/-- Reduction of `ReadIntoAdjust` at `adjust = 0` under the success
guards. -/
theorem readIntoAdjust_zero_eq (b : pcm.PCMPlayoutBuffer) (dst : List Nat)
    (hlen : dst.length = b.frameSize) (heven : b.frameSize % 2 = 0)
    (hfs : 0 < b.frameSize) (hge : b.frameSize ≤ b.buf.length) :
    b.ReadIntoAdjust dst 0 =
      (b.buf.take b.frameSize, { b with buf := b.buf.drop b.frameSize }, true) := by
  simp only [pcm.PCMPlayoutBuffer.ReadIntoAdjust, hlen, heven]
  split_ifs <;> first
    | (exfalso; omega)
    | (exact False.elim (by assumption))
    | (rw [show ((b.frameSize : Int) + 0 * 2).toNat = b.frameSize by omega]
       simp [List.take_take])

/-- Reduction of `ReadIntoAdjust` at `adjust = +1` under the success
guards. -/
theorem readIntoAdjust_plus_eq (b : pcm.PCMPlayoutBuffer) (dst : List Nat)
    (hlen : dst.length = b.frameSize) (heven : b.frameSize % 2 = 0)
    (hge : b.frameSize + 2 ≤ b.buf.length) :
    b.ReadIntoAdjust dst 1 =
      (pcm.dropOneSample b.frameSize (b.buf.take (b.frameSize + 2)),
        { b with buf := b.buf.drop (b.frameSize + 2) }, true) := by
  simp only [pcm.PCMPlayoutBuffer.ReadIntoAdjust, hlen, heven]
  split_ifs <;> first
    | (exfalso; omega)
    | (exact False.elim (by assumption))
    | (rw [show ((b.frameSize : Int) + 1 * 2).toNat = b.frameSize + 2 by omega])

/-- Reduction of `ReadIntoAdjust` at `adjust = -1` under the success
guards (`frameSize ≥ 4`). -/
theorem readIntoAdjust_minus_eq (b : pcm.PCMPlayoutBuffer) (dst : List Nat)
    (hlen : dst.length = b.frameSize) (heven : b.frameSize % 2 = 0)
    (hfs4 : 4 ≤ b.frameSize) (hge : b.frameSize - 2 ≤ b.buf.length) :
    b.ReadIntoAdjust dst (-1) =
      (pcm.dupOneSample b.frameSize (b.buf.take (b.frameSize - 2)),
        { b with buf := b.buf.drop (b.frameSize - 2) }, true) := by
  simp only [pcm.PCMPlayoutBuffer.ReadIntoAdjust, hlen, heven]
  split_ifs <;> first
    | (exfalso; omega)
    | (exact False.elim (by assumption))
    | (rw [show ((b.frameSize : Int) + -1 * 2).toNat = b.frameSize - 2 by omega])

/-- **C3 counterexample.** For `frameSize = 2` (even) and
`adjust = -1`, the requested consumption is `frameSize - 2 = 0` bytes;
the empty buffer holds at least that many bytes, yet `ReadIntoAdjust`
zero-fills and returns not-ok instead of emitting a frame (the code
treats `inBytes == 0` as underflow). -/
theorem readIntoAdjust_zero_consumption_cex :
    (0 : Int) ≥ (2 : Int) + 2 * (-1) ∧
    pcm.PCMPlayoutBuffer.ReadIntoAdjust ⟨2, []⟩ [7, 7] (-1) =
      ([0, 0], ⟨2, []⟩, false) := by
  exact ⟨by decide, by decide⟩

/-- **C3 (amended).** For every even `frameSize`, every
`adjust ∈ {-1, 0, +1}` with `frameSize + 2·adjust > 0` (the degenerate
`frameSize = 2, adjust = -1` case is underflow, see
`readIntoAdjust_zero_consumption_cex`), and every buffer holding at
least `frameSize + 2·adjust` bytes, `ReadIntoAdjust` with a right-sized
`dst` returns ok, produces a frame of exactly `frameSize` bytes whose
contents are independent of the prior `dst` contents (every byte is
overwritten), and removes exactly `frameSize + 2·adjust` bytes from the
front of the buffer. -/
theorem readIntoAdjust_success (b : pcm.PCMPlayoutBuffer) (dst : List Nat) (adjust : Int)
    (heven : b.frameSize % 2 = 0)
    (hadj : adjust = -1 ∨ adjust = 0 ∨ adjust = 1)
    (hlen : dst.length = b.frameSize)
    (hpos : 0 < (b.frameSize : Int) + 2 * adjust)
    (hge : (b.frameSize : Int) + 2 * adjust ≤ (b.buf.length : Int)) :
    (b.ReadIntoAdjust dst adjust).2.2 = true ∧
    (b.ReadIntoAdjust dst adjust).2.1 =
      { b with buf := b.buf.drop ((b.frameSize : Int) + 2 * adjust).toNat } ∧
    (b.ReadIntoAdjust dst adjust).1.length = b.frameSize ∧
    (∀ dst2, dst2.length = b.frameSize →
      (b.ReadIntoAdjust dst2 adjust).1 = (b.ReadIntoAdjust dst adjust).1) := by
  have hirrel : ∀ dst2, dst2.length = b.frameSize →
      (b.ReadIntoAdjust dst2 adjust).1 = (b.ReadIntoAdjust dst adjust).1 :=
    fun dst2 h2 => by rw [readIntoAdjust_dst_irrel b dst2 dst adjust h2 hlen]
  rcases hadj with rfl | rfl | rfl
  · have hfs4 : 4 ≤ b.frameSize := by omega
    have hge2 : b.frameSize - 2 ≤ b.buf.length := by omega
    have htn2 : ((b.frameSize : Int) + 2 * (-1)).toNat = b.frameSize - 2 := by omega
    rw [htn2]
    have hred := readIntoAdjust_minus_eq b dst hlen heven hfs4 hge2
    refine ⟨by rw [hred], by rw [hred], ?_, hirrel⟩
    rw [hred]
    exact dupOneSample_length b.frameSize _ hfs4 (by rw [List.length_take]; omega)
  · have hfs : 0 < b.frameSize := by omega
    have hge2 : b.frameSize ≤ b.buf.length := by omega
    have htn2 : ((b.frameSize : Int) + 2 * 0).toNat = b.frameSize := by omega
    rw [htn2]
    have hred := readIntoAdjust_zero_eq b dst hlen heven hfs hge2
    refine ⟨by rw [hred], by rw [hred], ?_, hirrel⟩
    rw [hred]
    rw [List.length_take]
    omega
  · have hge2 : b.frameSize + 2 ≤ b.buf.length := by omega
    have htn2 : ((b.frameSize : Int) + 2 * 1).toNat = b.frameSize + 2 := by omega
    rw [htn2]
    have hred := readIntoAdjust_plus_eq b dst hlen heven hge2
    refine ⟨by rw [hred], by rw [hred], ?_, hirrel⟩
    rw [hred]
    exact dropOneSample_length b.frameSize _ (by rw [List.length_take]; omega)

/-- Witness for `readIntoAdjust_success`: `frameSize = 4`,
`adjust = +1`, six buffered bytes: ok, a 4-byte frame, 6 bytes
consumed. -/
theorem readIntoAdjust_success_witness :
    (pcm.PCMPlayoutBuffer.ReadIntoAdjust ⟨4, [1, 2, 3, 4, 5, 6]⟩ [9, 9, 9, 9] 1).2.2 = true ∧
    (pcm.PCMPlayoutBuffer.ReadIntoAdjust ⟨4, [1, 2, 3, 4, 5, 6]⟩ [9, 9, 9, 9] 1).2.1 =
      { frameSize := 4, buf := List.drop ((4 : Int) + 2 * 1).toNat [1, 2, 3, 4, 5, 6] } ∧
    (pcm.PCMPlayoutBuffer.ReadIntoAdjust ⟨4, [1, 2, 3, 4, 5, 6]⟩ [9, 9, 9, 9] 1).1.length = 4 := by
  have h := readIntoAdjust_success ⟨4, [1, 2, 3, 4, 5, 6]⟩ [9, 9, 9, 9] 1 (by decide)
    (by right; right; rfl) (by decide) (by decide) (by decide)
  exact ⟨h.1, h.2.1, h.2.2.1⟩

/-- Witness for `readIntoAdjust_underflow_zero_fill`: `frameSize = 4`,
`adjust = +1`, five buffered bytes (< 6). -/
theorem readIntoAdjust_underflow_zero_fill_witness :
    pcm.PCMPlayoutBuffer.ReadIntoAdjust ⟨4, [1, 2, 3, 4, 5]⟩ [9, 9, 9, 9] 1 =
      ([0, 0, 0, 0], ⟨4, [1, 2, 3, 4, 5]⟩, false) :=
  readIntoAdjust_underflow_zero_fill ⟨4, [1, 2, 3, 4, 5]⟩ [9, 9, 9, 9] 1 (by decide)
    (by decide) (by decide) (by decide)

/-- A contiguous packet (sequence ≡ previous + 1 and timestamp ≡
previous + `samplesPerFrame`, modulo the uint16/uint32 header widths)
never triggers silence fill, and the filler state advances to the new
sequence/timestamp. -/
theorem handleRTP_contig (st : pipeline.silenceFiller) (seq ts : Nat)
    (hs : seq % 65536 = (st.lastSeq + 1) % 65536)
    (ht : ts % 4294967296 = (st.lastTS + st.samplesPerFrame) % 4294967296) :
    st.HandleRTP seq ts =
      (0, { st with
            packets := st.packets + 1
            lastSeq := seq % 65536
            lastTS := ts % 4294967296 }) := by
  have hseqdiff : (seq % 65536 + (65536 - (st.lastSeq + 1) % 65536)) % 65536 = 0 := by
    omega
  have htsdiff : (ts % 4294967296 +
      (4294967296 - (st.lastTS + st.samplesPerFrame) % 4294967296)) % 4294967296 = 0 := by
    omega
  simp only [pipeline.silenceFiller.HandleRTP, pipeline.silenceFiller.isSilenceSuppression,
    hseqdiff, htsdiff]
  simp

/-- The very first packet seen by a filler never triggers silence fill. -/
theorem handleRTP_first (st : pipeline.silenceFiller) (seq ts : Nat)
    (hpk : st.packets = 0) :
    st.HandleRTP seq ts =
      (0, { st with
            packets := st.packets + 1
            lastSeq := seq % 65536
            lastTS := ts % 4294967296 }) := by
  simp [pipeline.silenceFiller.HandleRTP, pipeline.silenceFiller.isSilenceSuppression, hpk]

/-- A gap-free tail of a stream fills no silence, by induction from any
state in sync with the previous packet. -/
theorem run_contig (n : Nat) : ∀ (st : pipeline.silenceFiller) (s t : Nat),
    st.lastSeq = s % 65536 → st.lastTS = t % 4294967296 →
    (st.run (pipeline.contigStream st.samplesPerFrame (s + 1)
      (t + st.samplesPerFrame) n)).1 = 0 := by
  induction n with
  | zero => intro st s t hs ht; rfl
  | succ n ih =>
    intro st s t hs ht
    rw [pipeline.contigStream]
    rw [pipeline.silenceFiller.run]
    have hstep := handleRTP_contig st (s + 1) (t + st.samplesPerFrame)
      (by omega) (by omega)
    simp only [hstep]
    have ih2 := ih
      { st with
        packets := st.packets + 1
        lastSeq := (s + 1) % 65536
        lastTS := (t + st.samplesPerFrame) % 4294967296 } (s + 1) (t + st.samplesPerFrame)
      (by simp) (by simp)
    simpa using ih2

/-- `isSilenceSuppression` on a packet with contiguous sequence number
and a forward timestamp jump (no uint32 wrap): DTX is flagged with
`gap / samplesPerFrame` missed frames. -/
theorem isSS_gap (st : pipeline.silenceFiller) (seq ts : Nat)
    (hpk : 1 ≤ st.packets)
    (hseqlt : seq < 65536) (htslt : ts < 4294967296)
    (hseq : seq = (st.lastSeq + 1) % 65536)
    (hts : st.lastTS + st.samplesPerFrame ≤ ts) :
    st.isSilenceSuppression seq ts =
      ((if (ts - (st.lastTS + st.samplesPerFrame)) / st.samplesPerFrame = 0 then (false, 0)
        else (true, (((ts - (st.lastTS + st.samplesPerFrame)) /
          st.samplesPerFrame : Nat) : Int))),
        { st with
          packets := st.packets + 1
          lastSeq := seq % 65536
          lastTS := ts % 4294967296 }) := by
  have hpk1 : ¬ (st.packets + 1 = 1) := by omega
  have hseqdiff : (seq % 65536 + (65536 - (st.lastSeq + 1) % 65536)) % 65536 = 0 := by
    omega
  have htsdiff : (ts % 4294967296 +
      (4294967296 - (st.lastTS + st.samplesPerFrame) % 4294967296)) % 4294967296 =
      ts - (st.lastTS + st.samplesPerFrame) := by
    omega
  have hmissed : ((ts - (st.lastTS + st.samplesPerFrame) : Nat) : Int).tdiv
      (st.samplesPerFrame : Int) =
      (((ts - (st.lastTS + st.samplesPerFrame)) / st.samplesPerFrame : Nat) : Int) :=
    (Int.ofNat_tdiv _ _).symm
  simp only [pipeline.silenceFiller.isSilenceSuppression, hseqdiff, htsdiff, hmissed,
    if_neg hpk1, ne_eq, not_true_eq_false, Bool.false_eq_true, if_false]
  by_cases hq : (ts - (st.lastTS + st.samplesPerFrame)) / st.samplesPerFrame = 0
  · have hq2 : (((ts - (st.lastTS + st.samplesPerFrame)) /
        st.samplesPerFrame : Nat) : Int) = 0 := by omega
    rw [if_pos hq2, if_pos hq]
  · have hq2 : ¬ ((((ts - (st.lastTS + st.samplesPerFrame)) /
        st.samplesPerFrame : Nat) : Int) = 0) := by omega
    rw [if_neg hq2, if_neg hq]

/-- On a packet with contiguous sequence number and a forward timestamp
jump (no uint32 wrap), the filler writes `gap / samplesPerFrame` silent
frames when that quotient is at most 25 and none otherwise. -/
theorem handleRTP_gap (st : pipeline.silenceFiller) (seq ts : Nat)
    (hpk : 1 ≤ st.packets) (hmax : st.maxGapSize = 25)
    (hseqlt : seq < 65536) (htslt : ts < 4294967296)
    (hseq : seq = (st.lastSeq + 1) % 65536)
    (hts : st.lastTS + st.samplesPerFrame ≤ ts) :
    (st.HandleRTP seq ts).1 =
      if (ts - (st.lastTS + st.samplesPerFrame)) / st.samplesPerFrame ≤ 25 then
        (ts - (st.lastTS + st.samplesPerFrame)) / st.samplesPerFrame
      else 0 := by
  rw [pipeline.silenceFiller.HandleRTP,
    isSS_gap st seq ts hpk hseqlt htslt hseq hts, hmax]
  by_cases hq : (ts - (st.lastTS + st.samplesPerFrame)) / st.samplesPerFrame = 0
  · rw [if_pos hq]
    simp [hq]
  · rw [if_neg hq]
    by_cases hle : (ts - (st.lastTS + st.samplesPerFrame)) / st.samplesPerFrame ≤ 25
    · have h1 : (((ts - (st.lastTS + st.samplesPerFrame)) /
          st.samplesPerFrame : Nat) : Int) ≤ ((25 : Nat) : Int) * 100 := by push_cast; omega
      have h2 : (((ts - (st.lastTS + st.samplesPerFrame)) /
          st.samplesPerFrame : Nat) : Int) ≤ ((25 : Nat) : Int) := by push_cast; omega
      rw [if_pos hle]
      simp only []
      rw [if_pos (And.intro trivial h1), if_pos h2]
      exact Int.toNat_natCast _
    · rw [if_neg hle]
      by_cases hbig : (((ts - (st.lastTS + st.samplesPerFrame)) /
          st.samplesPerFrame : Nat) : Int) ≤ ((25 : Nat) : Int) * 100
      · have h2 : ¬ ((((ts - (st.lastTS + st.samplesPerFrame)) /
            st.samplesPerFrame : Nat) : Int) ≤ ((25 : Nat) : Int)) := by push_cast; omega
        simp only []
        rw [if_pos (And.intro trivial hbig), if_neg h2]
      · simp only []
        rw [if_neg (fun hc => hbig (And.right hc))]

/-- On a packet whose sequence number is not the previous plus 1 (mod
2^16), the filler writes no silence. -/
theorem handleRTP_seqgap (st : pipeline.silenceFiller) (seq ts : Nat)
    (hpk : 1 ≤ st.packets) (hseqlt : seq < 65536)
    (hne : seq ≠ (st.lastSeq + 1) % 65536) :
    (st.HandleRTP seq ts).1 = 0 := by
  have hpk1 : ¬ (st.packets + 1 = 1) := by omega
  have hsd : (seq % 65536 + (65536 - (st.lastSeq + 1) % 65536)) % 65536 ≠ 0 := by
    omega
  rw [pipeline.silenceFiller.HandleRTP, pipeline.silenceFiller.isSilenceSuppression]
  simp only [if_neg hpk1, if_pos hsd]
  simp

/-- **C5.** For a packet after the first whose sequence number is the
previous plus 1: when the timestamp gap beyond the expected
`lastTS + samplesPerFrame` amounts to `q` whole frames with
`1 ≤ q ≤ 25`, exactly `q` silent frames are written; when `q > 25`,
none are; when the timestamps are contiguous, none are.  When the
sequence number is not the previous plus 1, none are.  In particular a
stream with no sequence gaps and no timestamp gaps (started from a
fresh filler) inserts exactly zero silence frames. -/
theorem silenceFiller_gap_fill (st : pipeline.silenceFiller) (seq ts : Nat)
    (hpk : 1 ≤ st.packets) (hmax : st.maxGapSize = 25)
    (hseqlt : seq < 65536) (htslt : ts < 4294967296) :
    (seq = (st.lastSeq + 1) % 65536 → st.lastTS + st.samplesPerFrame ≤ ts →
      (1 ≤ (ts - (st.lastTS + st.samplesPerFrame)) / st.samplesPerFrame →
        (ts - (st.lastTS + st.samplesPerFrame)) / st.samplesPerFrame ≤ 25 →
        (st.HandleRTP seq ts).1 =
          (ts - (st.lastTS + st.samplesPerFrame)) / st.samplesPerFrame) ∧
      (25 < (ts - (st.lastTS + st.samplesPerFrame)) / st.samplesPerFrame →
        (st.HandleRTP seq ts).1 = 0)) ∧
    (seq = (st.lastSeq + 1) % 65536 → ts = st.lastTS + st.samplesPerFrame →
      (st.HandleRTP seq ts).1 = 0) ∧
    (seq ≠ (st.lastSeq + 1) % 65536 → (st.HandleRTP seq ts).1 = 0) ∧
    (∀ clockRate seq0 ts0 n,
      ((pipeline.newSilenceFiller clockRate).run
        (pipeline.contigStream (clockRate / 50) seq0 ts0 n)).1 = 0) := by
  refine ⟨fun hseq hts => ⟨fun hq1 hq25 => ?_, fun hq25 => ?_⟩,
    fun hseq hts => ?_, fun hne => ?_, fun clockRate seq0 ts0 n => ?_⟩
  · rw [handleRTP_gap st seq ts hpk hmax hseqlt htslt hseq hts, if_pos hq25]
  · rw [handleRTP_gap st seq ts hpk hmax hseqlt htslt hseq hts,
      if_neg (by omega : ¬ (ts - (st.lastTS + st.samplesPerFrame)) /
        st.samplesPerFrame ≤ 25)]
  · rw [handleRTP_contig st seq ts (by omega) (by omega)]
  · exact handleRTP_seqgap st seq ts hpk hseqlt hne
  · cases n with
    | zero => rfl
    | succ n =>
      rw [pipeline.contigStream, pipeline.silenceFiller.run,
        handleRTP_first _ _ _ rfl]
      have h := run_contig n
        { maxGapSize := 25
          samplesPerFrame := clockRate / 50
          lastTS := ts0 % 4294967296
          lastSeq := seq0 % 65536
          packets := 0 + 1 } seq0 ts0 rfl rfl
      simpa [pipeline.newSilenceFiller] using h

/-- Witness for `silenceFiller_gap_fill`: `samplesPerFrame = 160`
(8 kHz, 20 ms), previous packet `(seq 100, ts 1000)`; a contiguous-seq
packet at `ts = 1960` (5-frame gap) fills 5 frames, a contiguous one at
`ts = 1160` fills none, a seq-gap packet fills none, and a 3-packet
gap-free stream from a fresh filler fills none. -/
theorem silenceFiller_gap_fill_witness :
    ((pipeline.silenceFiller.HandleRTP ⟨25, 160, 1000, 100, 1⟩ 101 1960).1 = 5) ∧
    ((pipeline.silenceFiller.HandleRTP ⟨25, 160, 1000, 100, 1⟩ 101 1160).1 = 0) ∧
    ((pipeline.silenceFiller.HandleRTP ⟨25, 160, 1000, 100, 1⟩ 103 1960).1 = 0) ∧
    ((pipeline.newSilenceFiller 8000).run
      (pipeline.contigStream (8000 / 50) 7 1000 3)).1 = 0 := by
  have h := silenceFiller_gap_fill ⟨25, 160, 1000, 100, 1⟩ 101 1960 (by decide) rfl
    (by decide) (by decide)
  have h2 := silenceFiller_gap_fill ⟨25, 160, 1000, 100, 1⟩ 101 1160 (by decide) rfl
    (by decide) (by decide)
  have h3 := silenceFiller_gap_fill ⟨25, 160, 1000, 100, 1⟩ 103 1960 (by decide) rfl
    (by decide) (by decide)
  refine ⟨?_, ?_, ?_, ?_⟩
  · have := (h.1 (by decide) (by decide)).1 (by decide) (by decide)
    simpa using this
  · exact h2.2.1 (by decide) (by decide)
  · exact h3.2.2.1 (by decide)
  · exact h.2.2.2 8000 7 1000 3

/-- `stepOf` always yields a positive step. -/
theorem stepOf_pos (stepMs : Int) : 1 ≤ endpoints.stepOf stepMs := by
  unfold endpoints.stepOf
  split_ifs <;> omega

/-- Along any injector call sequence, the clock state carries the wall
anchor unchanged and `micLastTsMs` equals the last emitted timestamp. -/
theorem tsSeq_state (w step : Int) (e : Nat → Int) :
    ∀ n, (endpoints.tsSeq w step e n).2.micStartWallMs = w ∧
      (endpoints.tsSeq w step e n).2.micLastTsMs = (endpoints.tsSeq w step e n).1 := by
  intro n
  induction n with
  | zero => exact ⟨rfl, rfl⟩
  | succ n ih =>
    constructor
    · show (endpoints.sendTs (endpoints.tsSeq w step e n).2 step (e (n + 1))).2.micStartWallMs = w
      rw [endpoints.sendTs]
      exact ih.1
    · exact rfl

/-- Every emitted timestamp is congruent to the wall anchor modulo the
step. -/
theorem tsSeq_dvd (w step : Int) (e : Nat → Int) :
    ∀ n, step ∣ ((endpoints.tsSeq w step e n).1 - w) := by
  intro n
  induction n with
  | zero =>
    show step ∣ ((endpoints.sendTs (endpoints.micInit w step) step (e 0)).1 - w)
    rw [endpoints.sendTs, endpoints.micInit]
    split_ifs
    · exact ⟨0, by ring⟩
    · exact ⟨(e 0).tdiv step, by ring⟩
  | succ n ih =>
    show step ∣ ((endpoints.sendTs (endpoints.tsSeq w step e n).2 step (e (n + 1))).1 - w)
    rw [endpoints.sendTs, (tsSeq_state w step e n).1, (tsSeq_state w step e n).2]
    split_ifs
    · have : (endpoints.tsSeq w step e n).1 + step - w =
          ((endpoints.tsSeq w step e n).1 - w) + step := by ring
      rw [this]
      exact dvd_add ih ⟨1, (mul_one step).symm⟩
    · exact ⟨(e (n + 1)).tdiv step, by ring⟩

/-- Every emitted timestamp is at least the quantised monotonic clock. -/
theorem tsSeq_lb (w step : Int) (e : Nat → Int) (hstep : 0 ≤ step) :
    ∀ n, w + (e n).tdiv step * step ≤ (endpoints.tsSeq w step e n).1 := by
  intro n
  cases n with
  | zero =>
    show _ ≤ (endpoints.sendTs (endpoints.micInit w step) step (e 0)).1
    rw [endpoints.sendTs, endpoints.micInit]
    split_ifs with h
    · simp only [endpoints.micInit] at h ⊢
      omega
    · exact le_refl _
  | succ n =>
    show _ ≤ (endpoints.sendTs (endpoints.tsSeq w step e n).2 step (e (n + 1))).1
    rw [endpoints.sendTs, (tsSeq_state w step e n).1, (tsSeq_state w step e n).2]
    split_ifs with h
    · omega
    · exact le_refl _

/-- **C6.** For any injector call sequence with non-decreasing monotonic
elapsed times `e`, the emitted capture timestamps are strictly
increasing; each consecutive difference is a (positive) whole multiple
of the step; and the difference exceeds one step only when the
monotonic clock itself advanced by at least one step between the two
calls. -/
theorem sendPCMFrame_ts_monotonic (startWallMs stepMs : Int) (e : Nat → Int)
    (he0 : ∀ n, 0 ≤ e n) (_hmono : ∀ n, e n ≤ e (n + 1)) (n : Nat) :
    (endpoints.tsSeq startWallMs (endpoints.stepOf stepMs) e n).1 <
      (endpoints.tsSeq startWallMs (endpoints.stepOf stepMs) e (n + 1)).1 ∧
    endpoints.stepOf stepMs ∣
      ((endpoints.tsSeq startWallMs (endpoints.stepOf stepMs) e (n + 1)).1 -
        (endpoints.tsSeq startWallMs (endpoints.stepOf stepMs) e n).1) ∧
    ((endpoints.tsSeq startWallMs (endpoints.stepOf stepMs) e (n + 1)).1 -
        (endpoints.tsSeq startWallMs (endpoints.stepOf stepMs) e n).1 ≠
        endpoints.stepOf stepMs →
      endpoints.stepOf stepMs ≤ e (n + 1) - e n) := by
  set step := endpoints.stepOf stepMs with hstepdef
  have hstep : 1 ≤ step := stepOf_pos stepMs
  set T := (endpoints.tsSeq startWallMs step e n).1 with hT
  have hunf : (endpoints.tsSeq startWallMs step e (n + 1)).1 =
      if startWallMs + (e (n + 1)).tdiv step * step ≤ T then T + step
      else startWallMs + (e (n + 1)).tdiv step * step := by
    show (endpoints.sendTs (endpoints.tsSeq startWallMs step e n).2 step (e (n + 1))).1 = _
    rw [endpoints.sendTs, (tsSeq_state startWallMs step e n).1,
      (tsSeq_state startWallMs step e n).2, ← hT]
  rw [hunf]
  split_ifs with hc
  · refine ⟨by omega, by simp, fun hne => absurd (by ring) hne⟩
  · push_neg at hc
    refine ⟨by omega, ?_, ?_⟩
    · have h1 : step ∣ (startWallMs + (e (n + 1)).tdiv step * step - startWallMs) :=
        ⟨(e (n + 1)).tdiv step, by ring⟩
      have h2 := tsSeq_dvd startWallMs step e n
      rw [← hT] at h2
      have : startWallMs + (e (n + 1)).tdiv step * step - T =
          (startWallMs + (e (n + 1)).tdiv step * step - startWallMs) - (T - startWallMs) := by
        ring
      rw [this]
      exact dvd_sub h1 h2
    · intro hne
      -- the difference is a positive multiple of step other than step itself
      have h1 : step ∣ (startWallMs + (e (n + 1)).tdiv step * step - startWallMs) :=
        ⟨(e (n + 1)).tdiv step, by ring⟩
      have h2 := tsSeq_dvd startWallMs step e n
      rw [← hT] at h2
      obtain ⟨k, hk⟩ : step ∣ (startWallMs + (e (n + 1)).tdiv step * step - T) := by
        have : startWallMs + (e (n + 1)).tdiv step * step - T =
            (startWallMs + (e (n + 1)).tdiv step * step - startWallMs) -
              (T - startWallMs) := by ring
        rw [this]
        exact dvd_sub h1 h2
      have hkpos : 1 ≤ k := by
        by_contra hk1
        push_neg at hk1
        have hsk : step * k ≤ 0 := by
          calc step * k ≤ step * 0 := mul_le_mul_of_nonneg_left (by omega) (by omega)
          _ = 0 := mul_zero step
        omega
      have hk2 : 2 ≤ k := by
        rcases lt_or_eq_of_le hkpos with h | h
        · omega
        · exfalso
          apply hne
          rw [hk, ← h, mul_one]
      have hdiff2 : 2 * step ≤ startWallMs + (e (n + 1)).tdiv step * step - T := by
        rw [hk]
        calc 2 * step = step * 2 := by ring
        _ ≤ step * k := by
          apply mul_le_mul_of_nonneg_left hk2
          omega
      -- relate the quantised clocks on both sides
      have hlb := tsSeq_lb startWallMs step e (by omega) n
      rw [← hT] at hlb
      have hq : (e n).tdiv step * step + 2 * step ≤ (e (n + 1)).tdiv step * step := by
        omega
      have hA : (e (n + 1)).tdiv step * step ≤ e (n + 1) := by
        rw [Int.tdiv_eq_ediv (he0 (n + 1)) (by omega)]
        exact Int.ediv_mul_le _ (by omega)
      have hB : e n < ((e n).tdiv step + 1) * step := by
        rw [Int.tdiv_eq_ediv (he0 n) (by omega)]
        exact Int.lt_ediv_add_one_mul_self _ (by omega)
      have hB' : e n < (e n).tdiv step * step + step := by
        have : ((e n).tdiv step + 1) * step = (e n).tdiv step * step + step := by ring
        omega
      omega

/-- Witness for `sendPCMFrame_ts_monotonic`: anchor 1000, step 10, a
34 ms pause between calls 2 and 3 (`e = 0,10,20,55,…`): consecutive
timestamp facts at `n = 2`. -/
theorem sendPCMFrame_ts_monotonic_witness :
    (endpoints.tsSeq 1000 (endpoints.stepOf 10)
        (fun n => if n < 3 then 10 * n else 10 * n + 25) 2).1 <
      (endpoints.tsSeq 1000 (endpoints.stepOf 10)
        (fun n => if n < 3 then 10 * n else 10 * n + 25) 3).1 ∧
    endpoints.stepOf 10 ≤
      (if 3 < 3 then (10 : Int) * 3 else 10 * 3 + 25) -
        (if 2 < 3 then (10 : Int) * 2 else 10 * 2 + 25) := by
  have h := sendPCMFrame_ts_monotonic 1000 10
    (fun n => if n < 3 then 10 * n else 10 * n + 25)
    (fun n => by dsimp only; split_ifs <;> omega)
    (fun n => by dsimp only; split_ifs <;> omega) 2
  exact ⟨h.1, h.2.2 (by decide)⟩

/-- `x.tdiv 2 * 2` rounds a non-negative value down to even. -/
theorem tdiv2_mul2_eq (x : Int) (h : 0 ≤ x) : x.tdiv 2 * 2 = x - x % 2 := by
  rw [Int.tdiv_eq_ediv h (by norm_num)]
  omega

/-- `x.tdiv 2 * 2` rounds a negative value up (toward zero) to even. -/
theorem tdiv2_mul2_eq_neg (x : Int) (h : x < 0) : x.tdiv 2 * 2 = x + (-x) % 2 := by
  have h2 : x.tdiv 2 = -((-x).tdiv 2) := by
    rw [← Int.neg_tdiv, neg_neg]
  rw [h2, Int.tdiv_eq_ediv (by omega) (by norm_num)]
  omega

/-- The strictly-improving argmin fold keeps a value satisfying any
predicate that holds of the initial best and all candidates. -/
theorem foldl_best_mem (f : Int → Int) (P : Int → Prop) :
    ∀ (cands : List Int) (init : Int × Int), P init.1 → (∀ x ∈ cands, P x) →
    P ((cands.foldl (fun best off => if f off < best.2 then (off, f off) else best) init).1) := by
  intro cands
  induction cands with
  | nil => intro init h0 _; exact h0
  | cons x xs ih =>
    intro init h0 hc
    rw [List.foldl_cons]
    apply ih
    · by_cases hx : f x < init.2
      · rw [if_pos hx]; exact hc x (List.mem_cons_self x xs)
      · rw [if_neg hx]; exact h0
    · exact fun y hy => hc y (List.mem_cons_of_mem x hy)

/-- `findBestCut` either falls back to the sample-aligned buffer length
(when the clamped window is empty) or returns an even offset inside
the clamped, sample-aligned window. -/
theorem findBestCut_mem (p : List Nat) (a b : Int) :
    ((if b > (p.length : Int) - 4 then (p.length : Int) - 4 else b).tdiv 2 * 2 <
        (if a < 2 then (2 : Int) else a).tdiv 2 * 2 ∧
      pcm.findBestCut p a b = (p.length : Int).tdiv 2 * 2) ∨
    ((if a < 2 then (2 : Int) else a).tdiv 2 * 2 ≤ pcm.findBestCut p a b ∧
      pcm.findBestCut p a b ≤
        (if b > (p.length : Int) - 4 then (p.length : Int) - 4 else b).tdiv 2 * 2 ∧
      2 ∣ pcm.findBestCut p a b) := by
  rw [pcm.findBestCut]
  set minOff := (if a < 2 then (2 : Int) else a).tdiv 2 * 2 with hmin
  set maxOff := (if b > (p.length : Int) - 4 then (p.length : Int) - 4 else b).tdiv 2 * 2
    with hmax
  by_cases hlt : maxOff < minOff
  · left
    exact ⟨hlt, by rw [if_pos hlt]⟩
  · right
    rw [if_neg hlt]
    have hmm : minOff ≤ maxOff := by omega
    have key := foldl_best_mem (pcm.cutScore p)
      (fun x => minOff ≤ x ∧ x ≤ maxOff ∧ 2 ∣ x)
      ((List.range ((maxOff - minOff).toNat / 2 + 1)).map fun (i : Nat) => minOff + 2 * (i : Int))
      (minOff, (2 ^ 31 - 1 : Int))
      ⟨le_refl _, hmm, ⟨(if a < 2 then (2 : Int) else a).tdiv 2, mul_comm _ _⟩⟩
      ?_
    · exact key
    · intro x hx
      obtain ⟨i, hi, hxeq⟩ := List.mem_map.mp hx
      rw [List.mem_range] at hi
      subst hxeq
      have hi' : (i : Int) ≤ (((maxOff - minOff).toNat / 2 : Nat) : Int) := by
        exact_mod_cast Nat.lt_succ_iff.mp hi
      have h1 : (maxOff - minOff).toNat / 2 * 2 ≤ (maxOff - minOff).toNat :=
        Nat.div_mul_le_self _ 2
      refine ⟨by omega, by omega, ?_⟩
      obtain ⟨c, hc⟩ : 2 ∣ minOff := ⟨(if a < 2 then (2 : Int) else a).tdiv 2, mul_comm _ _⟩
      exact ⟨c + i, by omega⟩

/-- **C7 (amended).** For every even `frameSize` and every buffer
content handed to the cut search by the `+1` (`inL` of
`frameSize + 2` bytes) or `-1` (`inL` of `frameSize - 2` bytes)
adjustment, the chosen cut offset is even and lies within
`[mid − 81, mid + 80]` of the midpoint `mid = frameSize/2`.  The
original `mid − 80` lower bound can be undershot by exactly one byte
when `mid` is odd, because the window edge is aligned *down* to a
sample boundary (see `findBestCut_below_window_cex`). -/
theorem findBestCut_window (p : List Nat) (fs : Nat) (heven : fs % 2 = 0)
    (hlen : p.length = fs + 2 ∨ p.length + 2 = fs) :
    2 ∣ pcm.findBestCut p ((fs : Int).tdiv 2 - 80) ((fs : Int).tdiv 2 + 80) ∧
    (fs : Int).tdiv 2 - 81 ≤
      pcm.findBestCut p ((fs : Int).tdiv 2 - 80) ((fs : Int).tdiv 2 + 80) ∧
    pcm.findBestCut p ((fs : Int).tdiv 2 - 80) ((fs : Int).tdiv 2 + 80) ≤
      (fs : Int).tdiv 2 + 80 := by
  have hmid : (fs : Int).tdiv 2 = (fs : Int) / 2 :=
    Int.tdiv_eq_ediv (by positivity) (by norm_num)
  set mid := (fs : Int).tdiv 2 with hmiddef
  have hmid0 : 0 ≤ mid := by omega
  have h1 := findBestCut_mem p (mid - 80) (mid + 80)
  set V := pcm.findBestCut p (mid - 80) (mid + 80) with hV
  -- characterise the two aligned window edges
  have hminE : (if mid - 80 < 2 then (2 : Int) else mid - 80).tdiv 2 * 2 =
      if mid - 80 < 2 then (2 : Int) else (mid - 80) - (mid - 80) % 2 := by
    split_ifs with h
    · norm_num
    · exact tdiv2_mul2_eq _ (by omega)
  have hmaxE : (if mid + 80 > (p.length : Int) - 4 then (p.length : Int) - 4
      else mid + 80).tdiv 2 * 2 =
      if mid + 80 > (p.length : Int) - 4 then
        (if (p.length : Int) - 4 < 0 then ((p.length : Int) - 4) + (4 - (p.length : Int)) % 2
         else ((p.length : Int) - 4) - ((p.length : Int) - 4) % 2)
      else (mid + 80) - (mid + 80) % 2 := by
    split_ifs with h h2
    · rw [tdiv2_mul2_eq_neg _ (by omega)]
      ring_nf
    · exact tdiv2_mul2_eq _ (by omega)
    · exact tdiv2_mul2_eq _ (by omega)
  have hlenE : ((p.length : Int)).tdiv 2 * 2 = (p.length : Int) - (p.length : Int) % 2 :=
    tdiv2_mul2_eq _ (by positivity)
  rw [hminE, hmaxE, hlenE] at h1
  have hfs2 : (fs : Int) = 2 * mid := by omega
  have hlint : (p.length : Int) = (fs : Int) + 2 ∨ (p.length : Int) + 2 = (fs : Int) := by
    omega
  rcases h1 with ⟨hlt, hfb⟩ | ⟨hlo, hhi, hdvd⟩
  · refine ⟨?_, ?_, ?_⟩ <;> split_ifs at hlt <;> omega
  · refine ⟨hdvd, ?_, ?_⟩ <;> split_ifs at hlo hhi <;> omega

/-- **C7 counterexample.** For `frameSize = 166` (even, `mid = 83`) and
the `+1` adjustment's `frameSize + 2 = 168`-byte input `cutCexBuf`,
the cut search picks offset 2 — outside `[mid − 80, mid + 80] =
[3, 163]` — because the window's lower edge is sample-aligned
*downwards* from 3 to 2 and the silent region makes 2 the best score. -/
theorem findBestCut_below_window_cex :
    (166 : Nat) % 2 = 0 ∧
    cutCexBuf.length = 166 + 2 ∧
    pcm.findBestCut cutCexBuf ((166 : Int).tdiv 2 - 80) ((166 : Int).tdiv 2 + 80) = 2 ∧
    ¬ ((166 : Int).tdiv 2 - 80 ≤ 2) := by
  exact ⟨by norm_num, by decide, by decide, by decide⟩

/-- Witness for `findBestCut_window` at `frameSize = 6` with the
all-zero 8-byte `+1` input. -/
theorem findBestCut_window_witness :
    2 ∣ pcm.findBestCut (List.replicate 8 0) ((6 : Int).tdiv 2 - 80) ((6 : Int).tdiv 2 + 80) ∧
    (6 : Int).tdiv 2 - 81 ≤
      pcm.findBestCut (List.replicate 8 0) ((6 : Int).tdiv 2 - 80) ((6 : Int).tdiv 2 + 80) ∧
    pcm.findBestCut (List.replicate 8 0) ((6 : Int).tdiv 2 - 80) ((6 : Int).tdiv 2 + 80) ≤
      (6 : Int).tdiv 2 + 80 :=
  findBestCut_window (List.replicate 8 0) 6 (by norm_num) (Or.inl (by decide))

/-- If every codec in the list is skipped as DTMF, the selection loop of
`CodecAudioFromList` ends with no pick. -/
theorem codecAudioFromList_none (weight : endpoints.Codec → Int)
    (codecs : List endpoints.Codec)
    (h : ∀ c ∈ codecs, c.skippedAsDTMF = true) :
    endpoints.CodecAudioFromList weight codecs = none := by
  have aux : ∀ (l : List (Nat × endpoints.Codec)),
      (∀ x ∈ l, x.2.skippedAsDTMF = true) →
      l.foldl (fun best ic =>
        if ic.2.skippedAsDTMF then best
        else
          let p := weight ic.2
          match best with
          | none => some (ic.1, p)
          | some bp => if p > bp.2 then some (ic.1, p) else best)
        (none : Option (Nat × Int)) = none := by
    intro l
    induction l with
    | nil => intro _; rfl
    | cons x xs ih =>
      intro hall
      rw [List.foldl_cons, if_pos (hall x (List.mem_cons_self x xs))]
      exact ih fun y hy => hall y (List.mem_cons_of_mem x hy)
  rw [endpoints.CodecAudioFromList]
  rw [aux codecs.enum ?_]
  intro x hx
  have hget := List.mem_enum_iff_getElem?.mp hx
  exact h x.2 (List.getElem?_mem hget)

/-- Once `pickAudio` has selected a codec, `NewSipEndpoint` is
`sipEndpointFromCodec` on it. -/
theorem newSipEndpoint_of_pick (reg : String → Option endpoints.LKCodecInfo)
    (weight : endpoints.Codec → Int) (commons sessionCodecs : List endpoints.Codec)
    (cfg : endpoints.SIPMediaConfig) (c : endpoints.Codec)
    (hc : (if commons.length > 0 then endpoints.CodecAudioFromList weight commons
      else endpoints.CodecAudioFromList weight sessionCodecs) = some c) :
    endpoints.NewSipEndpoint reg weight commons sessionCodecs cfg =
      endpoints.sipEndpointFromCodec reg c cfg := by
  rw [endpoints.NewSipEndpoint]
  by_cases hcom : commons.length > 0
  · rw [if_pos hcom] at hc
    simp only [if_pos hcom, hc]
  · rw [if_neg hcom] at hc
    simp only [if_neg hcom, hc]

/-- **C8.** `NewSipEndpoint` errors when the negotiated intersection is
DTMF-only (both with a non-empty common-codec list and on the fallback
session list), errors when the selected codec is not PCMU/PCMA/G722/
Opus, errors when the channel count is invalid for a supported family
(Opus: 1 or 2; others: 1), and succeeds for every supported codec with
a valid channel count whose canonical SDP name is non-blank and present
in the media-sdk registry as an enabled audio codec (the registry is
external environment, modelled by `reg`). -/
theorem newSipEndpoint_codec_validation
    (reg : String → Option endpoints.LKCodecInfo) (weight : endpoints.Codec → Int)
    (commons sessionCodecs : List endpoints.Codec) (cfg : endpoints.SIPMediaConfig) :
    (commons ≠ [] → (∀ c ∈ commons, c.skippedAsDTMF = true) →
      endpoints.NewSipEndpoint reg weight commons sessionCodecs cfg =
        .error "no audio codec negotiated (common codecs are DTMF-only)") ∧
    (commons = [] → (∀ c ∈ sessionCodecs, c.skippedAsDTMF = true) →
      endpoints.NewSipEndpoint reg weight commons sessionCodecs cfg =
        .error "no audio codec negotiated") ∧
    (∀ c, (if commons.length > 0 then endpoints.CodecAudioFromList weight commons
        else endpoints.CodecAudioFromList weight sessionCodecs) = some c →
      (¬ (endpoints.lowerStr c.Name = "opus" ∨ endpoints.lowerStr c.Name = "pcmu" ∨
          endpoints.lowerStr c.Name = "pcma" ∨ endpoints.lowerStr c.Name = "g722") →
        endpoints.NewSipEndpoint reg weight commons sessionCodecs cfg =
          .error ("unsupported sip codec " ++ c.Name)) ∧
      ((endpoints.lowerStr c.Name = "opus" ∨ endpoints.lowerStr c.Name = "pcmu" ∨
          endpoints.lowerStr c.Name = "pcma" ∨ endpoints.lowerStr c.Name = "g722") →
        (endpoints.lowerStr c.Name = "opus" ∧ ¬ (c.NumChannels = 1 ∨ c.NumChannels = 2)) ∨
          (¬ endpoints.lowerStr c.Name = "opus" ∧ c.NumChannels ≠ 1) →
        endpoints.NewSipEndpoint reg weight commons sessionCodecs cfg =
          .error "unsupported sip channel count") ∧
      (∀ info, (endpoints.lowerStr c.Name = "opus" ∨ endpoints.lowerStr c.Name = "pcmu" ∨
            endpoints.lowerStr c.Name = "pcma" ∨ endpoints.lowerStr c.Name = "g722") →
        (endpoints.lowerStr c.Name = "opus" → c.NumChannels = 1 ∨ c.NumChannels = 2) →
        (¬ endpoints.lowerStr c.Name = "opus" → c.NumChannels = 1) →
        endpoints.trimStr (endpoints.CanonicalSDPName c) ≠ "" →
        reg (endpoints.CanonicalSDPName c) = some info →
        info.isAudio = true → info.enabled = true →
        ∃ ep, endpoints.NewSipEndpoint reg weight commons sessionCodecs cfg =
          .ok ep)) := by
  refine ⟨fun hne hall => ?_, fun hemp hall => ?_, fun c hc => ⟨fun hunsupp => ?_,
    fun hsupp hbad => ?_, fun info hsupp hch1 hch2 htrim hreg haud hen => ?_⟩⟩
  · rw [endpoints.NewSipEndpoint]
    have hcom : commons.length > 0 := List.length_pos.mpr hne
    simp only [if_pos hcom, codecAudioFromList_none weight commons hall]
  · rw [endpoints.NewSipEndpoint]
    have hcom : ¬ commons.length > 0 := by simp [hemp]
    simp only [if_neg hcom, codecAudioFromList_none weight sessionCodecs hall]
  · rw [newSipEndpoint_of_pick reg weight commons sessionCodecs cfg c hc,
      endpoints.sipEndpointFromCodec, if_pos hunsupp]
  · rw [newSipEndpoint_of_pick reg weight commons sessionCodecs cfg c hc,
      endpoints.sipEndpointFromCodec, if_neg (not_not_intro hsupp)]
    rcases hbad with ⟨ho, hb⟩ | ⟨hno, hne1⟩
    · rw [if_pos ⟨ho, hb⟩]
    · rw [if_neg (fun hcon => hno hcon.1), if_pos ⟨hno, hne1⟩]
  · rw [newSipEndpoint_of_pick reg weight commons sessionCodecs cfg c hc,
      endpoints.sipEndpointFromCodec, if_neg (not_not_intro hsupp),
      if_neg (fun hcon => hcon.2 (hch1 hcon.1)),
      if_neg (fun hcon => hcon.2 (hch2 hcon.1)),
      if_neg htrim]
    simp only [hreg]
    rw [if_neg ?hcond]
    case hcond =>
      rintro (h | h)
      · exact h haud
      · exact h hen
    exact ⟨_, rfl⟩

/-- Witness for `newSipEndpoint_codec_validation`: a DTMF-only offer is
rejected (in both lists), G729 is rejected as unsupported, stereo PCMU
is rejected for its channel count, and mono PCMU with a registry entry
constructs an endpoint. -/
theorem newSipEndpoint_codec_validation_witness :
    (endpoints.NewSipEndpoint
        (fun s => if s = "PCMU/8000" then some ⟨8000, 8000, true, true⟩ else none)
        (fun _ => 0) [⟨"telephone-event", 101, 8000, 1⟩] [] ⟨0, 20⟩ =
      .error "no audio codec negotiated (common codecs are DTMF-only)") ∧
    (endpoints.NewSipEndpoint
        (fun s => if s = "PCMU/8000" then some ⟨8000, 8000, true, true⟩ else none)
        (fun _ => 0) [] [⟨"telephone-event", 101, 8000, 1⟩] ⟨0, 20⟩ =
      .error "no audio codec negotiated") ∧
    (endpoints.NewSipEndpoint
        (fun s => if s = "PCMU/8000" then some ⟨8000, 8000, true, true⟩ else none)
        (fun _ => 0) [⟨"G729", 18, 8000, 1⟩] [] ⟨0, 20⟩ =
      .error ("unsupported sip codec " ++ "G729")) ∧
    (endpoints.NewSipEndpoint
        (fun s => if s = "PCMU/8000" then some ⟨8000, 8000, true, true⟩ else none)
        (fun _ => 0) [⟨"PCMU", 0, 8000, 2⟩] [] ⟨0, 20⟩ =
      .error "unsupported sip channel count") ∧
    (∃ ep, endpoints.NewSipEndpoint
        (fun s => if s = "PCMU/8000" then some ⟨8000, 8000, true, true⟩ else none)
        (fun _ => 0) [⟨"PCMU", 0, 8000, 1⟩] [] ⟨0, 20⟩ = .ok ep) := by
  refine ⟨?_, ?_, ?_, ?_, ?_⟩
  · exact (newSipEndpoint_codec_validation _ _ _ _ _).1 (by decide)
      (by intro c hc; rw [List.mem_singleton] at hc; subst hc; decide)
  · exact (newSipEndpoint_codec_validation _ _ _ _ _).2.1 rfl
      (by intro c hc; rw [List.mem_singleton] at hc; subst hc; decide)
  · exact ((newSipEndpoint_codec_validation _ _ _ _ _).2.2
      ⟨"G729", 18, 8000, 1⟩ (by decide)).1 (by decide)
  · exact ((newSipEndpoint_codec_validation _ _ _ _ _).2.2
      ⟨"PCMU", 0, 8000, 2⟩ (by decide)).2.1 (by decide) (by decide)
  · exact ((newSipEndpoint_codec_validation _ _ _ _ _).2.2
      ⟨"PCMU", 0, 8000, 1⟩ (by decide)).2.2 ⟨8000, 8000, true, true⟩ (by decide)
      (by decide) (by decide) (by decide) (by decide) (by decide) (by decide)
